import Mathlib

/-!
Verification of the alicloud cloud-controller-manager core: the load-balancer
resolver (`findLoadBalancer`), the ingress hostname encoding, the client
manager's credential lifecycle (`NewClientMgr` and its periodic token refresh),
backend-server reconciliation, and the mocked metadata accessor's
`VswitchID` parsing.

Strings are Lean `String`s; Go's `strings.Split` is modelled by `splitChar`
on the underlying character list. Fallible Go calls returning `(T, error)`
are modelled as `Except`.
-/

namespace AlicloudCCM

/-! ## Go `strings.Split` on character lists -/

/-- Go `strings.Split(s, sep)` for a single-character separator, on the
underlying character list: splits at every occurrence of `c`, keeping empty
pieces, and yields one more piece than there are separators. -/
def splitChar (c : Char) : List Char → List (List Char)
  | [] => [[]]
  | x :: xs =>
    if x = c then [] :: splitChar c xs
    else
      match splitChar c xs with
      | [] => [[x]]
      | p :: ps => (x :: p) :: ps

/-- Go `strings.Split` on `String`, single-character separator. -/
def goSplit (c : Char) (s : String) : List String :=
  (splitChar c s.data).map fun l => String.mk l

theorem splitChar_ne_nil (c : Char) (s : List Char) : splitChar c s ≠ [] := by
  induction s with
  | nil => simp [splitChar]
  | cons x xs ih =>
    simp only [splitChar]
    split
    · simp
    · split
      · simp
      · simp

/-- Every piece produced by `splitChar` is free of the separator. -/
theorem splitChar_sep_not_mem (c : Char) (s : List Char) :
    ∀ p ∈ splitChar c s, c ∉ p := by
  induction s with
  | nil => intro p hp; simp [splitChar] at hp; simp [hp]
  | cons x xs ih =>
    intro p hp
    simp only [splitChar] at hp
    by_cases hx : x = c
    · simp [hx] at hp
      rcases hp with h | h
      · simp [h]
      · exact ih p h
    · simp [hx] at hp
      rcases hq : splitChar c xs with _ | ⟨q, qs⟩
      · exact absurd hq (splitChar_ne_nil c xs)
      · rw [hq] at hp
        simp at hp
        rcases hp with h | h
        · subst h
          intro hmem
          rcases List.mem_cons.mp hmem with h | h
          · exact hx h.symm
          · exact ih q (by simp [hq]) h
        · exact ih p (by simp [hq, h])

/-- The number of pieces is one more than the number of separators. -/
theorem splitChar_length (c : Char) (s : List Char) :
    (splitChar c s).length = s.count c + 1 := by
  induction s with
  | nil => simp [splitChar]
  | cons x xs ih =>
    simp only [splitChar]
    by_cases hx : x = c
    · simp [hx, ih, List.count_cons]
    · simp only [if_neg hx]
      rcases hq : splitChar c xs with _ | ⟨q, qs⟩
      · exact absurd hq (splitChar_ne_nil c xs)
      · rw [hq] at ih
        simp at ih
        simp [List.count_cons, hx, Ne.symm hx, ih]

/-- Splitting a string that does not contain the separator yields the string
itself as the single piece. -/
theorem splitChar_no_sep (c : Char) (s : List Char) (h : c ∉ s) :
    splitChar c s = [s] := by
  induction s with
  | nil => simp [splitChar]
  | cons x xs ih =>
    simp at h
    have hxc : ¬ x = c := fun he => h.1 he.symm
    simp [splitChar, if_neg hxc, ih h.2]

/-- Splitting `a ++ c :: t` where `a` is separator-free peels off `a` as the
first piece. -/
theorem splitChar_append (c : Char) (a t : List Char) (ha : c ∉ a) :
    splitChar c (a ++ c :: t) = a :: splitChar c t := by
  induction a with
  | nil => simp [splitChar]
  | cons x a ih =>
    simp at ha
    have hxc : ¬ x = c := fun he => ha.1 he.symm
    simp [List.cons_append, splitChar, if_neg hxc, ih ha.2]

/-! ## Ingress hostname encoding

`findLoadBalancer` and its helpers live in the load-balancer resolver, whose
source is referenced by `loadbalancer_test.go`; the resolver functions below
are modelled from the spec (§4.1, §6). -/

/-- Modelled from the spec: the ingress hostname encoding contract
`<service-name>.<loadbalancer-id>.<region>`, produced on creation
(the source `loadBalancerDomain` is exercised by `TestFindLoadBalancer`
but its definition is not among the given files). -/
def loadBalancerDomain (serviceName lbid region : String) : String :=
  serviceName ++ "." ++ lbid ++ "." ++ region

/-- Modelled from the spec: parsing the load-balancer ID back out of a
structured ingress hostname of the form
`<service-name>.<loadbalancer-id>.<region>` — split on `.` and take the
middle component of the three. -/
def parseLoadBalancerDomain (host : String) : Option String :=
  let parts := goSplit '.' host
  if parts.length = 3 then parts[1]? else none

/-- Concatenation of strings acts on the underlying character lists. -/
theorem data_domain (n i r : String) :
    (loadBalancerDomain n i r).data
      = n.data ++ '.' :: (i.data ++ '.' :: r.data) := by
  simp [loadBalancerDomain, String.data_append]

/-- Splitting a well-formed domain recovers the three components, provided
none of them contains a dot. -/
theorem goSplit_domain (n i r : String)
    (hn : '.' ∉ n.data) (hi : '.' ∉ i.data) (hr : '.' ∉ r.data) :
    goSplit '.' (loadBalancerDomain n i r) = [n, i, r] := by
  unfold goSplit
  rw [data_domain, splitChar_append '.' _ _ hn, splitChar_append '.' _ _ hi,
    splitChar_no_sep '.' _ hr]
  rfl

/-! ## Load-balancer resolver data model -/

/-- Snapshot of a remote load balancer (`slb.LoadBalancerType`), restricted to
the fields the resolver claims speak about. -/
structure LoadBalancerRecord where
  loadBalancerId : String
  loadBalancerName : String
  loadBalancerStatus : String
  address : String
  regionId : String
  networkType : String
deriving DecidableEq

/-- One entry of a Service's ingress status: IP address and/or hostname. -/
structure IngressEntry where
  ip : String
  hostname : String
deriving DecidableEq

/-- The part of a Kubernetes Service the resolver reads: identity, the
explicit load-balancer-ID annotation (when present), and the ingress status
list. -/
structure Service where
  ns : String
  name : String
  uid : String
  loadBalancerIdAnnotation : Option String
  ingress : List IngressEntry
deriving DecidableEq

/-- Modelled from the spec: the controller's standard derived load-balancer
name (`cloudprovider.GetLoadBalancerName`, referenced by the test but not
among the given files): prefix the UID with a lowercase letter, strip dashes,
truncate to 32 characters. -/
def getLoadBalancerName (svc : Service) : String :=
  let ret := "a" ++ svc.uid
  let ret := String.mk (ret.data.filter fun c => c ≠ '-')
  if ret.length > 32 then ret.take 32 else ret

/-- The first load-balancer ID encoded in the service's ingress status
hostnames, if any. Modelled from the spec: "the service's ingress status
already contains a hostname encoding a previously-created load-balancer ID". -/
def getIngressId (svc : Service) : Option String :=
  svc.ingress.findSome? fun ing => parseLoadBalancerDomain ing.hostname

/-- Hard errors of the resolver: an explicit or ingress-encoded ID that fails
to resolve, or a vendor API failure. -/
inductive FindError where
  | idNotFound (id : String)
  | apiFailure (e : String)
deriving DecidableEq

/-- The vendor SLB query surface the resolver uses: fetch one record by ID,
and look one up by name. `Except.ok none` is "zero matches". -/
structure CloudAPI where
  byId : String → Except String (Option LoadBalancerRecord)
  byName : String → Except String (Option LoadBalancerRecord)

/-- A well-behaved API backed by a finite list of records, as in the tests'
mock: queries never fail, and return the first record matching the key. -/
def listAPI (cloud : List LoadBalancerRecord) : CloudAPI where
  byId := fun id => .ok (cloud.find? fun r => r.loadBalancerId == id)
  byName := fun nm => .ok (cloud.find? fun r => r.loadBalancerName == nm)

/-- Modelled from the spec (§4.1): `findLoadBalancer(service)`, with the
result `(exists, record, error)` encoded as `Except`:
`Except.ok (some r)` is `exists=true` with record `r` and nil error,
`Except.ok none` is `exists=false` with nil error,
`Except.error e` is a hard error.
Resolution precedence, first match wins:
1. explicit load-balancer-ID annotation — fetch by that ID, any failure
   (not-found or API error) is a hard error;
2. ingress-status hostname encoding an ID — fetch by that ID, same failure
   rule;
3. look up by the deterministic derived name; zero matches is
   `exists=false` with nil error. -/
def findLoadBalancer (api : CloudAPI) (svc : Service) :
    Except FindError (Option LoadBalancerRecord) :=
  match svc.loadBalancerIdAnnotation with
  | some lbid =>
    match api.byId lbid with
    | .error e => .error (.apiFailure e)
    | .ok none => .error (.idNotFound lbid)
    | .ok (some r) => .ok (some r)
  | none =>
    match getIngressId svc with
    | some lbid =>
      match api.byId lbid with
      | .error e => .error (.apiFailure e)
      | .ok none => .error (.idNotFound lbid)
      | .ok (some r) => .ok (some r)
    | none =>
      match api.byName (getLoadBalancerName svc) with
      | .error e => .error (.apiFailure e)
      | .ok none => .ok none
      | .ok (some r) => .ok (some r)

/-! ## Client manager credential lifecycle (from `clientmgr.go`) -/

/-- `metadata.RoleAuth`, restricted to the three fields `authid` reads. -/
structure RoleAuth where
  accessKeyId : String
  accessKeySecret : String
  securityToken : String
deriving DecidableEq

/-- `TokenAuth` (the `sync.RWMutex` is not modelled; the claims are about the
sequential effect of construction and refresh steps). -/
structure TokenAuth where
  auth : RoleAuth
  active : Bool
deriving DecidableEq

/-- `TokenAuth.authid`: the currently stored credential triple. -/
def authid (t : TokenAuth) : String × String × String :=
  (t.auth.accessKeyId, t.auth.accessKeySecret, t.auth.securityToken)

/-- A vendor SDK client handle, holding the credential triple it was
initialized with (`NewECSClientWithSecurityToken` /
`NewSLBClientWithSecurityToken`) and later mutated in place by
`WithAccessKeyId` / `WithAccessKeySecret` / `WithSecurityToken`. -/
structure SDKClient where
  accessKeyId : String
  accessKeySecret : String
  securityToken : String
  region : String
deriving DecidableEq

/-- The credential triple held by an SDK client handle. -/
def clientTriple (c : SDKClient) : String × String × String :=
  (c.accessKeyId, c.accessKeySecret, c.securityToken)

def DEFAULT_REGION : String := "cn-hangzhou"

/-- The metadata-service calls `NewClientMgr` makes: role-name lookup and
role-token exchange. -/
structure MetaOracle where
  roleName : Except String String
  ramRoleToken : String → Except String RoleAuth

/-- `ClientMgr`, flattened to the state the claims are about: the token and
the two SDK client handles shared by the `instance`/`loadbalancer`/`routes`
sub-clients. -/
structure ClientMgr where
  token : TokenAuth
  ecsclient : SDKClient
  slbclient : SDKClient
deriving DecidableEq

/-- The token `NewClientMgr` settles on before building any client handle:
the explicit key/secret triple with `active=false`, except that when key or
secret is empty the role name and the initial role token are resolved
(failures abort construction) and stored with `active=true`. -/
def initialToken (meta : MetaOracle) (key secret : String) :
    Except String TokenAuth :=
  if key = "" ∨ secret = "" then
    match meta.roleName with
    | .error e => .error e
    | .ok rolename =>
      match meta.ramRoleToken rolename with
      | .error e => .error e
      | .ok role => .ok { auth := role, active := true }
  else
    .ok { auth := { accessKeyId := key, accessKeySecret := secret,
                    securityToken := "" },
          active := false }

/-- The tail of `NewClientMgr`: read `authid()` once and initialize both SDK
client handles with that triple. -/
def mkClientMgr (token : TokenAuth) : ClientMgr :=
  let (keyid, sec, tok) := authid token
  { token := token
    ecsclient := { accessKeyId := keyid, accessKeySecret := sec,
                   securityToken := tok, region := DEFAULT_REGION }
    slbclient := { accessKeyId := keyid, accessKeySecret := sec,
                   securityToken := tok, region := DEFAULT_REGION } }

/-- `NewClientMgr(key, secret)`: resolve the credential mode, then build the
manager around the resulting token. -/
def NewClientMgr (meta : MetaOracle) (key secret : String) :
    Except String ClientMgr :=
  (initialToken meta key secret).map mkClientMgr

/-- One iteration of the background refresh closure in `NewClientMgr`:
fetch a fresh role token; on error, log and return with all state unchanged;
on success, store the new `RoleAuth` and push the triple into both SDK
clients. `fetch` is the outcome of this iteration's `RamRoleToken` call. -/
def refreshStep (fetch : Except String RoleAuth) (mgr : ClientMgr) :
    ClientMgr :=
  match fetch with
  | .error _ => mgr
  | .ok role =>
    { mgr with
      token := { mgr.token with auth := role }
      ecsclient := { mgr.ecsclient with
        securityToken := role.securityToken
        accessKeyId := role.accessKeyId
        accessKeySecret := role.accessKeySecret }
      slbclient := { mgr.slbclient with
        securityToken := role.securityToken
        accessKeyId := role.accessKeyId
        accessKeySecret := role.accessKeySecret } }

/-- One scheduling step of the manager: the refresh goroutine is started only
when `token.active` (`NewClientMgr` returns before `go wait.Until` when
`!token.active`), so a refresh iteration runs only in that case. -/
def systemStep (fetch : Except String RoleAuth) (mgr : ClientMgr) :
    ClientMgr :=
  if mgr.token.active then refreshStep fetch mgr else mgr

/-- A run of the manager after construction: the sequence of role-token fetch
outcomes of the successive refresh intervals. -/
def runSystem (fetches : List (Except String RoleAuth)) (mgr : ClientMgr) :
    ClientMgr :=
  fetches.foldl (fun m f => systemStep f m) mgr

/-- The credential-propagation invariant: both SDK client handles carry
exactly the triple stored in the token. -/
def inSync (m : ClientMgr) : Prop :=
  clientTriple m.ecsclient = authid m.token ∧
  clientTriple m.slbclient = authid m.token

instance : DecidablePred inSync := fun m => by
  unfold inSync; infer_instance

/-! ## Mocked metadata accessor (`fakeMetaData`, from `clientmgr.go`) -/

/-- The global cloud-config fields `fakeMetaData` reads. -/
structure CloudCfg where
  vswitchID : String
  zoneID : String
deriving DecidableEq

/-- `fakeMetaData.Zone`: the configured zone override when non-empty, else
the base metadata server's answer. -/
def fakeZone (cfg : CloudCfg) (baseZone : Except String String) :
    Except String String :=
  if cfg.zoneID ≠ "" then .ok cfg.zoneID else baseZone

/-- Errors of `fakeMetaData.VswitchID`. -/
inductive VswitchErr where
  | zoneErr (e : String)
  | formatErr (s : String)
deriving DecidableEq

/-- The loop of `fakeMetaData.VswitchID` over the comma-separated entries.
In the source the loop variable is also named `zone` and shadows the instance
zone fetched before the loop, so each entry's zone part `vs[0]` is compared
with the entry itself. Falls back to the whole configured string when no
entry matches. -/
def vswitchLoop (cfgVswitchID : String) : List String → Except VswitchErr String
  | [] => .ok cfgVswitchID
  | entry :: rest =>
    let vs := goSplit ':' entry
    if vs.length ≠ 2 then .error (.formatErr cfgVswitchID)
    else if vs.getD 0 "" = entry then .ok (vs.getD 1 "")
    else vswitchLoop cfgVswitchID rest

/-- `fakeMetaData.VswitchID`: split the configured string on commas; a single
entry is returned as-is; otherwise fetch the zone (an error there is
wrapped), then scan the entries with `vswitchLoop`. -/
def fakeVswitchID (cfg : CloudCfg) (baseZone : Except String String) :
    Except VswitchErr String :=
  let zlist := goSplit ',' cfg.vswitchID
  if zlist.length = 1 then .ok cfg.vswitchID
  else
    match fakeZone cfg baseZone with
    | .error e => .error (.zoneErr e)
    | .ok _zone => vswitchLoop cfg.vswitchID zlist

/-! ## Backend-server reconciliation -/

/-- Modelled from the spec (§4.2 step 3): the nodes to add — desired nodes
not currently registered as backends. -/
def backendAdditions (desired current : List String) : List String :=
  desired.filter fun n => !(current.contains n)

/-- Modelled from the spec (§4.2 step 3): the backends to remove — current
backends no longer in the desired node set. -/
def backendRemovals (desired current : List String) : List String :=
  current.filter fun b => !(desired.contains b)

/-- Modelled from the spec (§4.2 step 3): one diff-and-apply pass of
backend-server reconciliation. Returns the resulting membership and the
number of remote mutation calls issued: one add-backend-servers call when
there is something to add, one remove-backend-servers call when there is
something to remove. -/
def reconcileBackends (desired current : List String) :
    List String × Nat :=
  let adds := backendAdditions desired current
  let removes := backendRemovals desired current
  ((current.filter fun b => desired.contains b) ++ adds,
   (if adds.isEmpty then 0 else 1) + (if removes.isEmpty then 0 else 1))

/-! ## Concrete test fixtures (shared by the witnesses) -/

/-- The service of the concrete test scenario: `default/service-test` with
UID `abcdefghigklmnopqrstu`, no annotations, no prior ingress. -/
def testService : Service :=
  { ns := "default", name := "service-test", uid := "abcdefghigklmnopqrstu",
    loadBalancerIdAnnotation := none, ingress := [] }

/-- A remote record carrying the derived name of `testService`. -/
def testRecord : LoadBalancerRecord :=
  { loadBalancerId := "lb-bp1ids9hmq5924m6uk5w1",
    loadBalancerName := "aabcdefghigklmnopqrstu",
    loadBalancerStatus := "active", address := "47.97.241.114",
    regionId := "cn-hangzhou", networkType := "classic" }

/-! ## Resolver lemmas -/

/-- Resolution through the explicit annotation: with the annotation present
and the list-backed fetch by that ID succeeding, the resolver returns exactly
the fetched record, whose ID is the annotated one. -/
theorem findLB_explicitId (cloud : List LoadBalancerRecord) (svc : Service)
    (id : String) (r : LoadBalancerRecord)
    (hann : svc.loadBalancerIdAnnotation = some id)
    (hfind : (cloud.find? fun q => q.loadBalancerId == id) = some r) :
    findLoadBalancer (listAPI cloud) svc = .ok (some r) ∧
      r.loadBalancerId = id := by
  have hp := List.find?_some hfind
  have hid : r.loadBalancerId = id := by simpa using hp
  exact ⟨by simp [findLoadBalancer, hann, listAPI, hfind], hid⟩

/-- Resolution through the ingress-encoded ID: with no annotation and the
ingress status encoding `id`, a successful fetch resolves to a record with
exactly that ID. -/
theorem findLB_ingress (cloud : List LoadBalancerRecord) (svc : Service)
    (id : String) (r : LoadBalancerRecord)
    (hann : svc.loadBalancerIdAnnotation = none)
    (hing : getIngressId svc = some id)
    (hfind : (cloud.find? fun q => q.loadBalancerId == id) = some r) :
    findLoadBalancer (listAPI cloud) svc = .ok (some r) ∧
      r.loadBalancerId = id := by
  have hp := List.find?_some hfind
  have hid : r.loadBalancerId = id := by simpa using hp
  exact ⟨by simp [findLoadBalancer, hann, hing, listAPI, hfind], hid⟩

/-- Resolution through the derived name: with neither annotation nor
ingress-encoded ID, a name match resolves to a record carrying the
controller's standard derived name. -/
theorem findLB_name (cloud : List LoadBalancerRecord) (svc : Service)
    (r : LoadBalancerRecord)
    (hann : svc.loadBalancerIdAnnotation = none)
    (hing : getIngressId svc = none)
    (hfind : (cloud.find? fun q =>
        q.loadBalancerName == getLoadBalancerName svc) = some r) :
    findLoadBalancer (listAPI cloud) svc = .ok (some r) ∧
      r.loadBalancerName = getLoadBalancerName svc := by
  have hp := List.find?_some hfind
  have hnm : r.loadBalancerName = getLoadBalancerName svc := by simpa using hp
  exact ⟨by simp [findLoadBalancer, hann, hing, listAPI, hfind], hnm⟩

/-- Claim C1: findLoadBalancer resolves identity sources in fixed priority
order, first match winning: an explicit annotation resolves to the fetched
record whatever the ingress status and name matches say; otherwise an
ingress-encoded ID resolves to exactly that ID; otherwise a match on the
deterministic derived name returns `exists=true` with `LoadBalancerName`
equal to the controller's standard derived name. -/
theorem C1_resolution_precedence :
    (∀ (cloud : List LoadBalancerRecord) (svc : Service) (id : String)
        (r : LoadBalancerRecord),
      svc.loadBalancerIdAnnotation = some id →
      (cloud.find? fun q => q.loadBalancerId == id) = some r →
      findLoadBalancer (listAPI cloud) svc = .ok (some r) ∧
        r.loadBalancerId = id) ∧
    (∀ (cloud : List LoadBalancerRecord) (svc : Service) (id : String)
        (r : LoadBalancerRecord),
      svc.loadBalancerIdAnnotation = none →
      getIngressId svc = some id →
      (cloud.find? fun q => q.loadBalancerId == id) = some r →
      findLoadBalancer (listAPI cloud) svc = .ok (some r) ∧
        r.loadBalancerId = id) ∧
    (∀ (cloud : List LoadBalancerRecord) (svc : Service)
        (r : LoadBalancerRecord),
      svc.loadBalancerIdAnnotation = none →
      getIngressId svc = none →
      (cloud.find? fun q =>
          q.loadBalancerName == getLoadBalancerName svc) = some r →
      findLoadBalancer (listAPI cloud) svc = .ok (some r) ∧
        r.loadBalancerName = getLoadBalancerName svc) :=
  ⟨findLB_explicitId, findLB_ingress, findLB_name⟩

/-- Witness for C1 at the concrete test scenario: `default/service-test`,
UID `abcdefghigklmnopqrstu`, no annotations, no prior ingress, against a
cloud holding one record named with the standard derived name. -/
theorem C1_witness :
    findLoadBalancer (listAPI [testRecord]) testService
        = .ok (some testRecord) ∧
      testRecord.loadBalancerName = getLoadBalancerName testService :=
  C1_resolution_precedence.2.2 [testRecord] testService testRecord
    rfl rfl (by decide)

/-- Claim C2 as stated quantifies over every service name; a service name
containing a dot breaks the encode/parse round-trip at this concrete input. -/
theorem C2_counterexample :
    ¬ (parseLoadBalancerDomain
        (loadBalancerDomain "my.service" "lb-123" "cn-hangzhou")
        = some "lb-123") := by decide

/-- Claim C2 (amended: the service name, load-balancer ID and region must not
contain a dot, and the fetch of the encoded ID must succeed): the hostname
encoding round-trips — parsing the produced hostname yields back exactly the
encoded ID — and findLoadBalancer on an annotation-free service whose ingress
hostname was produced for ID `i` resolves to a record with that exact ID. -/
theorem C2_domain_roundtrip :
    (∀ n i r : String, '.' ∉ n.data → '.' ∉ i.data → '.' ∉ r.data →
      parseLoadBalancerDomain (loadBalancerDomain n i r) = some i) ∧
    (∀ (cloud : List LoadBalancerRecord) (svc : Service)
        (n i r ip : String) (rec : LoadBalancerRecord),
      '.' ∉ n.data → '.' ∉ i.data → '.' ∉ r.data →
      svc.loadBalancerIdAnnotation = none →
      svc.ingress = [{ ip := ip, hostname := loadBalancerDomain n i r }] →
      (cloud.find? fun q => q.loadBalancerId == i) = some rec →
      findLoadBalancer (listAPI cloud) svc = .ok (some rec) ∧
        rec.loadBalancerId = i) := by
  have hparse : ∀ n i r : String,
      '.' ∉ n.data → '.' ∉ i.data → '.' ∉ r.data →
      parseLoadBalancerDomain (loadBalancerDomain n i r) = some i := by
    intro n i r hn hi hr
    simp [parseLoadBalancerDomain, goSplit_domain n i r hn hi hr]
  refine ⟨hparse, ?_⟩
  intro cloud svc n i r ip rec hn hi hr hann hing hfind
  have hid : getIngressId svc = some i := by
    simp [getIngressId, hing, hparse n i r hn hi hr]
  exact findLB_ingress cloud svc i rec hann hid hfind

/-- Witness for C2 (amended) at the test's concrete encoding
`my-service.lb-bp1ids9hmq5924m6uk5w1-ingress.cn-hangzhou`. -/
theorem C2_witness :
    parseLoadBalancerDomain
        (loadBalancerDomain "my-service" "lb-bp1ids9hmq5924m6uk5w1-ingress"
          "cn-hangzhou")
      = some "lb-bp1ids9hmq5924m6uk5w1-ingress" :=
  C2_domain_roundtrip.1 "my-service" "lb-bp1ids9hmq5924m6uk5w1-ingress"
    "cn-hangzhou" (by decide) (by decide) (by decide)

/-- Claim C3: with no explicit-ID annotation, no ingress-encoded ID, and the
remote lookup by derived name returning zero matches, findLoadBalancer
returns `exists=false` (`Except.ok none`) and a nil error. -/
theorem C3_notfound_is_not_error :
    ∀ (api : CloudAPI) (svc : Service),
      svc.loadBalancerIdAnnotation = none →
      getIngressId svc = none →
      api.byName (getLoadBalancerName svc) = .ok none →
      findLoadBalancer api svc = .ok none := by
  intro api svc hann hing hname
  simp [findLoadBalancer, hann, hing, hname]

/-- Witness for C3: the concrete test service against an empty cloud. -/
theorem C3_witness :
    findLoadBalancer (listAPI []) testService = .ok none :=
  C3_notfound_is_not_error (listAPI []) testService rfl rfl rfl

/-- Claim C4: with an explicit load-balancer-ID annotation whose fetch fails
(not-found or API error), findLoadBalancer returns a hard error — whatever
the ingress status and the name lookup would say, so it never falls through
to the other strategies. -/
theorem C4_explicit_id_hard_error :
    ∀ (api : CloudAPI) (svc : Service) (id : String),
      svc.loadBalancerIdAnnotation = some id →
      (api.byId id = .ok none →
        findLoadBalancer api svc = .error (.idNotFound id)) ∧
      (∀ e, api.byId id = .error e →
        findLoadBalancer api svc = .error (.apiFailure e)) := by
  intro api svc id hann
  constructor
  · intro h
    simp [findLoadBalancer, hann, h]
  · intro e h
    simp [findLoadBalancer, hann, h]

/-- An API where no ID ever resolves but the name lookup would match —
the fall-through bait for the C4 witness. -/
def testApiIdGone : CloudAPI where
  byId := fun _ => .ok none
  byName := fun _ => .ok (some testRecord)

/-- Witness for C4: a service annotated with `lb-xyz-new` against an API
where the ID fetch is not-found while a name match exists; the resolver still
hard-errors. -/
theorem C4_witness :
    findLoadBalancer testApiIdGone
        { testService with loadBalancerIdAnnotation := some "lb-xyz-new" }
      = .error (.idNotFound "lb-xyz-new") :=
  (C4_explicit_id_hard_error testApiIdGone
    { testService with loadBalancerIdAnnotation := some "lb-xyz-new" }
    "lb-xyz-new" rfl).1 rfl

/-! ## Client manager lemmas -/

theorem exceptMap_ok {ε α β : Type} (f : α → β) (x : Except ε α) (y : β)
    (h : x.map f = .ok y) : ∃ a, x = .ok a ∧ y = f a := by
  cases x with
  | error e => simp [Except.map] at h
  | ok a => exact ⟨a, rfl, by simpa [Except.map] using h.symm⟩

theorem initialToken_explicit (meta : MetaOracle) (key secret : String)
    (hk : key ≠ "") (hs : secret ≠ "") :
    initialToken meta key secret =
      .ok { auth := { accessKeyId := key, accessKeySecret := secret,
                      securityToken := "" },
            active := false } := by
  unfold initialToken
  rw [if_neg (by tauto)]

theorem initialToken_role (meta : MetaOracle) (key secret : String)
    (h : key = "" ∨ secret = "") (t : TokenAuth)
    (ht : initialToken meta key secret = .ok t) :
    t.active = true ∧ ∃ rolename, meta.roleName = .ok rolename ∧
      meta.ramRoleToken rolename = .ok t.auth := by
  unfold initialToken at ht
  rw [if_pos h] at ht
  rcases hrn : meta.roleName with e | rolename <;> rw [hrn] at ht
  · cases ht
  · simp only [] at ht
    rcases hrt : meta.ramRoleToken rolename with e | role <;> rw [hrt] at ht
    · cases ht
    · simp only [Except.ok.injEq] at ht
      subst ht
      exact ⟨rfl, rolename, rfl, hrt⟩

theorem mkClientMgr_token (t : TokenAuth) : (mkClientMgr t).token = t := rfl

theorem mkClientMgr_inSync (t : TokenAuth) : inSync (mkClientMgr t) := by
  simp [mkClientMgr, inSync, clientTriple, authid]

theorem refreshStep_token_active (f : Except String RoleAuth)
    (m : ClientMgr) : (refreshStep f m).token.active = m.token.active := by
  cases f <;> simp [refreshStep]

theorem systemStep_token_active (f : Except String RoleAuth) (m : ClientMgr) :
    (systemStep f m).token.active = m.token.active := by
  unfold systemStep
  split
  · exact refreshStep_token_active f m
  · rfl

theorem runSystem_cons (f : Except String RoleAuth)
    (fs : List (Except String RoleAuth)) (m : ClientMgr) :
    runSystem (f :: fs) m = runSystem fs (systemStep f m) := rfl

theorem runSystem_token_active (fs : List (Except String RoleAuth))
    (m : ClientMgr) : (runSystem fs m).token.active = m.token.active := by
  induction fs generalizing m with
  | nil => rfl
  | cons f fs ih =>
    rw [runSystem_cons, ih, systemStep_token_active]

theorem refreshStep_ok_sync (role : RoleAuth) (mgr : ClientMgr) :
    (refreshStep (.ok role) mgr).token.auth = role ∧
      inSync (refreshStep (.ok role) mgr) := by
  simp [refreshStep, inSync, clientTriple, authid]

theorem systemStep_inSync (f : Except String RoleAuth) (m : ClientMgr)
    (h : inSync m) : inSync (systemStep f m) := by
  unfold systemStep
  split
  · cases f with
    | error e => simpa [refreshStep] using h
    | ok role => exact (refreshStep_ok_sync role m).2
  · exact h

theorem runSystem_inSync (fs : List (Except String RoleAuth)) (m : ClientMgr)
    (h : inSync m) : inSync (runSystem fs m) := by
  induction fs generalizing m with
  | nil => exact h
  | cons f fs ih =>
    rw [runSystem_cons]
    exact ih (systemStep f m) (systemStep_inSync f m h)

theorem systemStep_inactive (f : Except String RoleAuth) (m : ClientMgr)
    (h : m.token.active = false) : systemStep f m = m := by
  unfold systemStep
  rw [h]
  simp

theorem runSystem_inactive (fs : List (Except String RoleAuth))
    (m : ClientMgr) (h : m.token.active = false) : runSystem fs m = m := by
  induction fs with
  | nil => rfl
  | cons f fs ih =>
    rw [runSystem_cons, systemStep_inactive f m h, ih]

/-- Claim C5: `NewClientMgr` puts exactly one credential mode in effect,
chosen once from whether key and secret are both non-empty — explicit
key/secret means `active=false` with the given triple and empty token,
otherwise `active=true` with the role-exchanged triple — and no later
refresh step ever changes the mode. -/
theorem C5_single_credential_mode :
    ∀ (meta : MetaOracle) (key secret : String) (mgr : ClientMgr),
      NewClientMgr meta key secret = .ok mgr →
      ((key ≠ "" ∧ secret ≠ "") →
        mgr.token.active = false ∧
        mgr.token.auth = { accessKeyId := key, accessKeySecret := secret,
                           securityToken := "" }) ∧
      ((key = "" ∨ secret = "") →
        mgr.token.active = true ∧
        ∃ rolename, meta.roleName = .ok rolename ∧
          meta.ramRoleToken rolename = .ok mgr.token.auth) ∧
      (∀ fetches, (runSystem fetches mgr).token.active
        = mgr.token.active) := by
  intro meta key secret mgr hmk
  obtain ⟨t, ht, rfl⟩ := exceptMap_ok mkClientMgr _ mgr hmk
  refine ⟨?_, ?_, fun fetches => runSystem_token_active fetches _⟩
  · intro ⟨hk, hs⟩
    rw [initialToken_explicit meta key secret hk hs] at ht
    cases ht
    exact ⟨rfl, rfl⟩
  · intro h
    simpa [mkClientMgr_token] using initialToken_role meta key secret h t ht

/-- The metadata oracle used by the concrete witnesses. -/
def testMeta : MetaOracle :=
  { roleName := .ok "KubernetesMasterRole",
    ramRoleToken := fun _ =>
      .ok { accessKeyId := "role-key", accessKeySecret := "role-secret",
            securityToken := "role-token" } }

/-- The manager `NewClientMgr testMeta "" ""` constructs (role mode). -/
def roleMgr : ClientMgr :=
  mkClientMgr
    { auth := { accessKeyId := "role-key", accessKeySecret := "role-secret",
                securityToken := "role-token" },
      active := true }

/-- The manager `NewClientMgr testMeta "AKID" "SECRET"` constructs
(explicit mode). -/
def explicitMgr : ClientMgr :=
  mkClientMgr
    { auth := { accessKeyId := "AKID", accessKeySecret := "SECRET",
                securityToken := "" },
      active := false }

/-- Witness for C5 at a concrete explicit-mode construction. -/
theorem C5_witness :
    explicitMgr.token.active = false ∧
    explicitMgr.token.auth = { accessKeyId := "AKID",
                               accessKeySecret := "SECRET",
                               securityToken := "" } :=
  (C5_single_credential_mode testMeta "AKID" "SECRET" explicitMgr rfl).1
    ⟨by decide, by decide⟩

/-- Claim C6: a failed refresh leaves the stored credential triple and both
SDK client handles' triples unchanged — in fact the whole manager state is
unchanged — and the step returns normally instead of aborting the manager. -/
theorem C6_failed_refresh_unchanged :
    ∀ (e : String) (mgr : ClientMgr),
      (refreshStep (.error e) mgr).token.auth = mgr.token.auth ∧
      clientTriple (refreshStep (.error e) mgr).ecsclient
        = clientTriple mgr.ecsclient ∧
      clientTriple (refreshStep (.error e) mgr).slbclient
        = clientTriple mgr.slbclient ∧
      refreshStep (.error e) mgr = mgr := by
  intro e mgr
  simp [refreshStep]

/-- Claim C7: after every successful refresh step the stored triple equals
the freshly fetched role token and both SDK clients carry that same triple;
the in-sync invariant is preserved by every refresh step, successful or
failed, and holds from construction for the manager's lifetime. -/
theorem C7_credential_propagation :
    (∀ (role : RoleAuth) (mgr : ClientMgr),
      (refreshStep (.ok role) mgr).token.auth = role ∧
      inSync (refreshStep (.ok role) mgr)) ∧
    (∀ (fetch : Except String RoleAuth) (mgr : ClientMgr),
      inSync mgr → inSync (systemStep fetch mgr)) ∧
    (∀ (meta : MetaOracle) (key secret : String) (mgr : ClientMgr),
      NewClientMgr meta key secret = .ok mgr →
      ∀ fetches, inSync (runSystem fetches mgr)) := by
  refine ⟨refreshStep_ok_sync, systemStep_inSync, ?_⟩
  intro meta key secret mgr hmk fetches
  obtain ⟨t, _, rfl⟩ := exceptMap_ok mkClientMgr _ mgr hmk
  exact runSystem_inSync fetches _ (mkClientMgr_inSync t)

/-- Witness for C7: the role-mode manager stays in sync across a successful
and then a failed refresh. -/
theorem C7_witness :
    inSync (runSystem
      [Except.ok { accessKeyId := "k2", accessKeySecret := "s2",
                   securityToken := "t2" },
       Except.error "boom"] roleMgr) :=
  C7_credential_propagation.2.2 testMeta "" "" roleMgr rfl _

/-- Claim C8: with both key and secret non-empty the refresh task is never
started, so no refresh step ever runs and `authid` returns
`(key, secret, "")` forever — the Explicit state is terminal. -/
theorem C8_explicit_mode_terminal :
    ∀ (meta : MetaOracle) (key secret : String) (mgr : ClientMgr),
      key ≠ "" → secret ≠ "" →
      NewClientMgr meta key secret = .ok mgr →
      ∀ fetches,
        runSystem fetches mgr = mgr ∧
        authid (runSystem fetches mgr).token = (key, secret, "") := by
  intro meta key secret mgr hk hs hmk fetches
  obtain ⟨t, ht, rfl⟩ := exceptMap_ok mkClientMgr _ mgr hmk
  rw [initialToken_explicit meta key secret hk hs] at ht
  cases ht
  have hrun := runSystem_inactive fetches
    (mkClientMgr { auth := { accessKeyId := key, accessKeySecret := secret,
                             securityToken := "" },
                   active := false }) rfl
  rw [hrun]
  exact ⟨rfl, rfl⟩

/-- Witness for C8: the concrete explicit-mode manager is unchanged by a
would-be refresh and still answers the explicit triple. -/
theorem C8_witness :
    runSystem [Except.ok { accessKeyId := "a", accessKeySecret := "b",
                           securityToken := "c" }] explicitMgr = explicitMgr ∧
    authid (runSystem [Except.ok { accessKeyId := "a",
                                   accessKeySecret := "b",
                                   securityToken := "c" }]
        explicitMgr).token
      = ("AKID", "SECRET", "") :=
  C8_explicit_mode_terminal testMeta "AKID" "SECRET" explicitMgr
    (by decide) (by decide) rfl _

/-! ## Backend reconciliation lemmas -/

theorem reconcileBackends_eq (desired current : List String) :
    reconcileBackends desired current =
      ((current.filter fun b => desired.contains b)
          ++ backendAdditions desired current,
       (if (backendAdditions desired current).isEmpty then 0 else 1) +
       (if (backendRemovals desired current).isEmpty then 0 else 1)) := rfl

/-- After one pass, every desired node is a member. -/
theorem reconcile_mem_of_desired (desired current : List String)
    (n : String) (hn : n ∈ desired) :
    n ∈ (reconcileBackends desired current).1 := by
  rw [reconcileBackends_eq]
  by_cases hc : n ∈ current
  · exact List.mem_append_left _
      (List.mem_filter.mpr ⟨hc, by simp [List.contains, List.elem_eq_mem, hn]⟩)
  · exact List.mem_append_right _
      (List.mem_filter.mpr ⟨hn,
        by simp [backendAdditions, List.contains, List.elem_eq_mem, hc]⟩)

/-- After one pass, every member is a desired node. -/
theorem reconcile_mem_desired (desired current : List String)
    (n : String) (hn : n ∈ (reconcileBackends desired current).1) :
    n ∈ desired := by
  rw [reconcileBackends_eq] at hn
  rcases List.mem_append.mp hn with h | h
  · have := (List.mem_filter.mp h).2
    simpa [List.contains, List.elem_eq_mem] using this
  · exact (List.mem_filter.mp h).1

/-- Claim C9: backend-server reconciliation is idempotent — running the
diff-and-apply step a second time with the same desired node set issues zero
add-backend or remove-backend mutation calls. -/
theorem C9_backend_reconcile_idempotent :
    ∀ desired current : List String,
      (reconcileBackends desired (reconcileBackends desired current).1).2
        = 0 := by
  intro desired current
  have hadds : backendAdditions desired
      (reconcileBackends desired current).1 = [] := by
    rw [backendAdditions, List.filter_eq_nil_iff]
    intro n hn
    simp [List.contains, List.elem_eq_mem,
      reconcile_mem_of_desired desired current n hn]
  have hrem : backendRemovals desired
      (reconcileBackends desired current).1 = [] := by
    rw [backendRemovals, List.filter_eq_nil_iff]
    intro n hn
    simp [List.contains, List.elem_eq_mem,
      reconcile_mem_desired desired current n hn]
  rw [reconcileBackends_eq, hadds, hrem]
  rfl

/-! ## VswitchID lemmas -/

theorem goSplit_length (c : Char) (s : String) :
    (goSplit c s).length = s.data.count c + 1 := by
  simp [goSplit, splitChar_length]

/-- An entry splitting into exactly two colon-separated parts contains a
colon, so its zone part differs from the entry itself: the source's loop
compares `vs[0]` with the shadowing loop variable (the entry), and that
comparison can never succeed. -/
theorem goSplit_two_head_ne (entry : String)
    (h2 : (goSplit ':' entry).length = 2) :
    (goSplit ':' entry).getD 0 "" ≠ entry := by
  have hlen := goSplit_length ':' entry
  have hmem : ':' ∈ entry.data := by
    rw [← List.count_pos_iff]
    omega
  rcases hs : splitChar ':' entry.data with _ | ⟨p0, rest⟩
  · exact absurd hs (splitChar_ne_nil ':' entry.data)
  · have hp0 : ':' ∉ p0 :=
      splitChar_sep_not_mem ':' entry.data p0 (by simp [hs])
    have hgd : (goSplit ':' entry).getD 0 "" = String.mk p0 := by
      simp [goSplit, hs]
    rw [hgd]
    intro heq
    have hd : p0 = entry.data := congrArg String.data heq
    rw [hd] at hp0
    exact hp0 hmem

/-- When every entry is well-formed the match branch is unreachable and the
scan falls through to the whole configured string. -/
theorem vswitchLoop_all_wellformed (cfgV : String) (l : List String)
    (h : ∀ entry ∈ l, (goSplit ':' entry).length = 2) :
    vswitchLoop cfgV l = .ok cfgV := by
  induction l with
  | nil => rfl
  | cons entry rest ih =>
    have h2 := h entry (by simp)
    have hne := goSplit_two_head_ne entry h2
    show (if (goSplit ':' entry).length ≠ 2 then _
          else if (goSplit ':' entry).getD 0 "" = entry then _
          else vswitchLoop cfgV rest) = _
    rw [if_neg (by simp [h2]), if_neg hne]
    exact ih fun e he => h e (by simp [he])

/-- A malformed entry anywhere in the list makes the scan return the
format error. -/
theorem vswitchLoop_malformed (cfgV : String) (l : List String)
    (h : ∃ entry ∈ l, (goSplit ':' entry).length ≠ 2) :
    vswitchLoop cfgV l = .error (.formatErr cfgV) := by
  induction l with
  | nil => simp at h
  | cons entry rest ih =>
    show (if (goSplit ':' entry).length ≠ 2 then _
          else if (goSplit ':' entry).getD 0 "" = entry then _
          else vswitchLoop cfgV rest) = _
    by_cases h2 : (goSplit ':' entry).length = 2
    · have hne := goSplit_two_head_ne entry h2
      rw [if_neg (by simp [h2]), if_neg hne]
      apply ih
      rcases h with ⟨e, he, hbad⟩
      rcases List.mem_cons.mp he with rfl | hmem
      · exact absurd h2 hbad
      · exact ⟨e, hmem, hbad⟩
    · rw [if_pos h2]

/-- Claim C10: on a multi-entry VSwitch configuration (at least one comma)
whose zone lookup succeeds, `fakeMetaData.VswitchID` never returns the
per-zone vswitch part of any entry: when every entry splits into exactly two
colon-separated parts it returns the entire configuration string unchanged
(the per-zone match branch is unreachable because the loop variable shadows
the instance zone), and when some entry does not split into exactly two
parts it returns the format error. -/
theorem C10_vswitch_shadowed_zone :
    ∀ (cfg : CloudCfg) (baseZone : Except String String) (z : String),
      ',' ∈ cfg.vswitchID.data →
      fakeZone cfg baseZone = .ok z →
      ((∀ entry ∈ goSplit ',' cfg.vswitchID,
          (goSplit ':' entry).length = 2) →
        fakeVswitchID cfg baseZone = .ok cfg.vswitchID) ∧
      ((∃ entry ∈ goSplit ',' cfg.vswitchID,
          (goSplit ':' entry).length ≠ 2) →
        fakeVswitchID cfg baseZone
          = .error (.formatErr cfg.vswitchID)) := by
  intro cfg baseZone z hcomma hz
  have hone : 0 < cfg.vswitchID.data.count ',' :=
    List.count_pos_iff.mpr hcomma
  have hlen : ¬ (goSplit ',' cfg.vswitchID).length = 1 := by
    rw [goSplit_length]
    omega
  constructor
  · intro hall
    unfold fakeVswitchID
    rw [if_neg hlen, hz]
    exact vswitchLoop_all_wellformed _ _ hall
  · intro hbad
    unfold fakeVswitchID
    rw [if_neg hlen, hz]
    exact vswitchLoop_malformed _ _ hbad

/-- Witness for C10: a two-entry configuration whose first entry's zone part
equals the configured zone — the intended per-zone answer would be `vsw-1`,
yet the whole string comes back. -/
theorem C10_witness :
    fakeVswitchID { vswitchID := "zone-a:vsw-1,zone-b:vsw-2",
                    zoneID := "zone-a" } (Except.error "no-base")
      = .ok "zone-a:vsw-1,zone-b:vsw-2" :=
  (C10_vswitch_shadowed_zone
      { vswitchID := "zone-a:vsw-1,zone-b:vsw-2", zoneID := "zone-a" }
      (Except.error "no-base") "zone-a" (by decide) rfl).1
    (by decide)

end AlicloudCCM
